import Mathlib

/-!
Verification of the conflict-aware merge engine of the `-graph-cdjcxy` repository.

This file gives a shallow embedding, in Lean 4, of the parts of the Python code
that the frozen claims are about:

* `src/conflict_experiment.py` — the three conflict-resolution strategies
  `resolve_conflict_weight_first`, `resolve_conflict_latest_first`,
  `resolve_conflict_with_hybrid`;
* `src/utils.py` — `compute_dynamic_weight`;
* `src/conflict_resolution.py` — `ConflictResolver.check_relationship_conflict`
  and `ConflictResolver.get_conflict_log`;
* `src/knowledge_graph_updater.py` — `KnowledgeGraphUpdater.update_knowledge_graph`
  and `KnowledgeGraphUpdater.tx_work`.

Modelling conventions, used uniformly below:

* Python floats are modelled as exact rationals (`ℚ`).  Every constant in the
  source (0.5, 0.7, 0.3, 0.6, 0.1, 365, 200, …) is exactly representable, and no
  claim hinges on rounding, so rational arithmetic is a faithful model of the
  comparisons the code performs.  Where a counterexample relies on a tie between
  two float scores, the two Python computations run the identical operation
  sequence on identical operands, hence produce bitwise-equal floats, so a tie
  in `ℚ` is a tie in Python as well.
* A Python `datetime` value is modelled as its ordinal (a rational number of
  days; `datetime.min` is ordinal 0), together with a Boolean "timezone-aware"
  flag.  Python 3 raises `TypeError` both when *ordering* an aware and a naive
  datetime and when *subtracting* one from the other; the embedding reflects
  those partial operations explicitly.  `timedelta.days` is floor division,
  modelled by `Int.floor`.
* The `timestamp` field of a fact is a string in Python; only the outcome of
  `datetime.fromisoformat(s.replace('Z', '+00:00'))` is observable, so the field
  is embedded as the four possible outcomes: key absent / empty string
  (`missing`), present but unparsable (`invalid`), parsed without an offset
  (`naive t`), parsed with an offset such as a trailing `Z` (`aware t`).
* A Python dict fact is embedded as a structure; `x.get(k, default)` on an
  optional field is `Option.getD`.  The `{}` "no winner" sentinel returned by
  the resolvers on empty input is embedded as `none`.
* `sorted(l, key=k, reverse=True)` is Python's stable sort: descending in the
  key, with elements of equal key kept in original order.  The stable descending
  sort of a list is unique, so the insertion sort `sortDesc` below produces
  exactly the list Python produces.  When the list of keys contains both an
  aware and a naive datetime, any comparison sort must at some point compare an
  aware key with a naive key (the relative order of such a pair can only be
  decided by a comparison on a chain crossing the two groups), and that
  comparison raises `TypeError`; `resolve_conflict_latest_first` therefore
  raises exactly when both kinds occur in a list of length ≥ 2, which the
  embedding returns as `Except.error ()`.
-/

namespace GraphCDJ

/-- Outcome of parsing a fact's `timestamp` string with
`datetime.fromisoformat(timestamp_str.replace('Z', '+00:00'))`:
the key is absent or the string empty (`missing`), parsing raises `ValueError`
(`invalid`), or it yields a timezone-naive (`naive`) or timezone-aware
(`aware`) datetime with the given ordinal (rational days, `datetime.min` = 0). -/
inductive Ts where
  | missing : Ts
  | invalid : Ts
  | naive : ℚ → Ts
  | aware : ℚ → Ts
deriving DecidableEq

/-- The `source` sub-dict of a fact: `{type, url, weight}`, each key optional
(`stype` embeds the dict key `type`, which is not a valid field name here). -/
structure Source where
  stype : Option String
  url : Option String
  weight : Option ℚ
deriving DecidableEq

/-- A fact record as consumed by the three resolvers in
`src/conflict_experiment.py`: `fact.get('value', '')` makes an absent value the
empty string, so `value` is a plain string; `source` itself may be absent
(`attr` embeds the dict key `attribute`, which is a reserved word here). -/
structure Fact where
  entity_name : String
  attr : String
  value : String
  source : Option Source
  timestamp : Ts
deriving DecidableEq

/-- `parse_timestamp` (conflict_experiment.py lines 53-61): missing and
unparsable timestamps become `datetime.min` (naive, ordinal 0); otherwise the
parsed datetime with its awareness flag is returned. -/
def parse_timestamp (f : Fact) : Bool × ℚ :=
  match f.timestamp with
  | Ts.missing => (false, 0)
  | Ts.invalid => (false, 0)
  | Ts.naive t => (false, t)
  | Ts.aware t => (true, t)

/-- Whether the parsed sort key of a fact is timezone-aware. -/
def lfAware (f : Fact) : Bool := (parse_timestamp f).1

/-- The ordinal of the parsed sort key of a fact. -/
def lfKey (f : Fact) : ℚ := (parse_timestamp f).2

/-- Sort key of `resolve_conflict_weight_first`:
`x.get('source', {}).get('weight', 0)` — note the default is 0 here,
unlike the 0.5 default used by the hybrid strategy. -/
def wfKey (f : Fact) : ℚ := (f.source.bind (fun s => s.weight)).getD 0

/-- Insert `x` into an already descending-sorted list, before the first element
whose key is ≤ its own.  This is the unique stable position, matching Python's
stable `sorted(..., reverse=True)`. -/
def insertDesc (k : α → ℚ) (x : α) : List α → List α
  | [] => [x]
  | y :: ys => if k y ≤ k x then x :: y :: ys else y :: insertDesc k x ys

/-- Stable descending sort by a rational key; produces exactly the list
`sorted(l, key=k, reverse=True)` produces (the stable descending sort of a
list is unique). -/
def sortDesc (k : α → ℚ) : List α → List α
  | [] => []
  | x :: xs => insertDesc k x (sortDesc k xs)

/-- `resolve_conflict_weight_first` (conflict_experiment.py lines 20-37):
empty input returns the sentinel `{}` (embedded as `none`); otherwise the head
of the descending weight sort.  The Python function returns only this single
dict — it produces no explanation value. -/
def resolve_conflict_weight_first (l : List Fact) : Option Fact :=
  (sortDesc wfKey l).head?

/-- The explanation component of `resolve_conflict_weight_first`'s return
value: the Python function returns a single dict (the winning fact) for every
input and never an explanation, so this is constantly `none`. -/
def weight_first_explanation : List Fact → Option String := fun _ => none

/-- `resolve_conflict_latest_first` (conflict_experiment.py lines 39-67):
empty input returns the sentinel `{}`; otherwise the facts are sorted
descending by parsed timestamp.  If the parsed keys mix timezone-aware and
timezone-naive datetimes (in particular if any fact with a `Z`-suffixed
timestamp meets a fact whose missing or unparsable timestamp became the naive
`datetime.min`), the comparison inside `sorted` raises `TypeError`, which
nothing in the function catches: embedded as `Except.error ()`. -/
def resolve_conflict_latest_first (l : List Fact) : Except Unit (Option Fact) :=
  match l with
  | [] => Except.ok none
  | x :: xs =>
      if ((x :: xs).any fun f => lfAware f) && ((x :: xs).any fun f => ! lfAware f) then
        Except.error ()
      else
        Except.ok ((sortDesc lfKey (x :: xs)).head?)

/-- The explanation component of `resolve_conflict_latest_first`'s return
value: like the weight-first strategy, the Python function returns only the
winning dict, never an explanation. -/
def latest_first_explanation : List Fact → Option String := fun _ => none

/-- Base weight used by the hybrid strategy:
`fact.get('source', {}).get('weight', 0.5)` (default 0.5 here). -/
def hybridBase (f : Fact) : ℚ := (f.source.bind (fun s => s.weight)).getD (1/2)

/-- The `(time_decay, time_freshness)` pair computed by the hybrid strategy
(conflict_experiment.py lines 90-108).  `now = datetime.now()` is timezone
*naive*, so `now - fact_time` succeeds only for naive parsed timestamps; for an
aware timestamp the subtraction raises `TypeError`, which the
`except (ValueError, TypeError)` arm catches, yielding the same 0.3 defaults as
a missing or unparsable timestamp.  `(now - fact_time).days` is `Int.floor`. -/
def hybridTime (now : ℚ) (f : Fact) : ℚ × ℚ :=
  match f.timestamp with
  | Ts.naive t =>
      let d : ℤ := ⌊now - t⌋
      (max (3/10) (1 - ((d : ℚ) / 30) * (15/100)),
       1 - min 1 ((d : ℚ) / 365) * (7/10))
  | _ => (3/10, 3/10)

/-- `content_quality = min(1.0, len(content_value) / 200) * 0.5 + 0.5`
(conflict_experiment.py line 112); `len` counts code points, as
`String.length` does. -/
def contentQuality (f : Fact) : ℚ := min 1 ((f.value.length : ℚ) / 200) * (1/2) + 1/2

/-- `final_score = base_weight * 0.6 + time_freshness * 0.3 + content_quality * 0.1`
(conflict_experiment.py line 115). -/
def hybridScore (now : ℚ) (f : Fact) : ℚ :=
  hybridBase f * (6/10) + (hybridTime now f).2 * (3/10) + contentQuality f * (1/10)

/-- The per-candidate entry the hybrid strategy reports in its explanation:
the final score and the four detail components (conflict_experiment.py
lines 118-123). -/
structure ScoreEntry where
  final_score : ℚ
  base_weight : ℚ
  time_decay : ℚ
  time_freshness : ℚ
  content_quality : ℚ
deriving DecidableEq

/-- Assemble the score entry of one fact, as built at
conflict_experiment.py lines 118-123. -/
def hybridScoreEntry (now : ℚ) (f : Fact) : ScoreEntry :=
  { final_score := hybridScore now f
    base_weight := hybridBase f
    time_decay := (hybridTime now f).1
    time_freshness := (hybridTime now f).2
    content_quality := contentQuality f }

/-- The key under which a candidate at (sorted) position `i` appears in the
explanation dict: `fact.get('source', {}).get('url', f"事实{i}")`. -/
def dictKey (i : ℕ) (f : Fact) : String :=
  (f.source.bind (fun s => s.url)).getD ("事实" ++ toString i)

/-- Python dict insertion: a duplicate key overwrites the stored value in
place (keeping the key's original position); a fresh key is appended. -/
def dictInsert (k : String) (v : ScoreEntry) :
    List (String × ScoreEntry) → List (String × ScoreEntry)
  | [] => [(k, v)]
  | (k2, v2) :: rest => if k2 = k then (k2, v) :: rest else (k2, v2) :: dictInsert k v rest

/-- The `scores` dict comprehension of the hybrid explanation
(conflict_experiment.py lines 132-137): iterate the *sorted* candidate list
with its enumeration index, inserting each entry under its `dictKey`. -/
def buildScores (now : ℚ) : ℕ → List Fact → List (String × ScoreEntry) →
    List (String × ScoreEntry)
  | _, [], d => d
  | i, f :: fs, d =>
      buildScores now (i + 1) fs (dictInsert (dictKey i f) (hybridScoreEntry now f) d)

/-- The explanation dict returned by the hybrid strategy: a reason string and
the per-key score entries (in Python, a dict; here, its key/value list in
insertion order). -/
structure Explanation where
  reason : String
  scores : List (String × ScoreEntry)
deriving DecidableEq

/-- `resolve_conflict_with_hybrid` (conflict_experiment.py lines 69-140).
Empty input returns the `{}` sentinel with the "no conflicting facts supplied"
reason (and no `scores` key, embedded as the empty list).  Otherwise every fact
is scored, the scored list is stable-sorted descending by final score, the
winner is the head, and the explanation reports the score entries keyed by
source url (or `事实{i}` by sorted position when the url is absent). -/
def resolve_conflict_with_hybrid (now : ℚ) (l : List Fact) : Option Fact × Explanation :=
  match l with
  | [] => (none, { reason := "没有提供冲突事实", scores := [] })
  | x :: xs =>
      let sorted := sortDesc (hybridScore now) (x :: xs)
      (sorted.head?,
       { reason := "基于综合评分选择的获胜事实"
         scores := buildScores now 0 sorted [] })

/-! ## Weight calculator (`src/utils.py`, `compute_dynamic_weight`) -/

/-- The `metrics` bundle passed to `compute_dynamic_weight`:
`metrics.get("ratings", 0.0)` makes the rating optional. -/
structure Metrics where
  ratings : Option ℚ
deriving DecidableEq

/-- The fields of the `data` record that `compute_dynamic_weight` reads. -/
structure WData where
  source_type : Option String
  pub_timestamp : Ts
deriving DecidableEq

/-- `compute_dynamic_weight` (utils.py lines 21-45).  `base = ratings/5`,
scaled by 0.8 for `source_type == "crawler"` (the `"manual"` branch multiplies
by 1.0 and any other type is untouched, both identities); if a timestamp is
present, `now = datetime.now().astimezone()` is timezone *aware*, so the age
subtraction succeeds for aware timestamps, while for a naive timestamp it
raises `TypeError` and for an unparsable one `fromisoformat` raises
`ValueError` — either way the enclosing `try` returns 0.  The single final
clamp is `max(0.0, min(1.0, base_weight))`. -/
def compute_dynamic_weight (now : ℚ) (data : WData) (metrics : Metrics) : ℚ :=
  let base0 := (metrics.ratings.getD 0) / 5
  let base := if data.source_type = some "crawler" then base0 * (8/10) else base0
  match data.pub_timestamp with
  | Ts.missing => max 0 (min 1 base)
  | Ts.invalid => 0
  | Ts.naive _ => 0
  | Ts.aware t =>
      let d : ℤ := ⌊now - t⌋
      max 0 (min 1 (base * max 0 (1 - (d : ℚ) / 365)))

/-- The weight formula exactly as the specification's claim states it, for
comparison with `compute_dynamic_weight`: `clamp(rating/5, 0, 1)` multiplied by
the source-type multiplier, multiplied (when a timestamp is present and
parses) by freshness `max(0, 1 − age_days/365)`; 0 on a parse failure. -/
def dynamicWeightSpec (now : ℚ) (data : WData) (metrics : Metrics) : ℚ :=
  let base := max 0 (min 1 ((metrics.ratings.getD 0) / 5))
  let mult : ℚ := if data.source_type = some "crawler" then 8/10 else 1
  match data.pub_timestamp with
  | Ts.missing => base * mult
  | Ts.invalid => 0
  | Ts.naive t => base * mult * max 0 (1 - ((⌊now - t⌋ : ℤ) : ℚ) / 365)
  | Ts.aware t => base * mult * max 0 (1 - ((⌊now - t⌋ : ℤ) : ℚ) / 365)

/-! ## Relationship conflict detection
(`src/conflict_resolution.py`, `ConflictResolver.check_relationship_conflict`) -/

/-- A relationship proposal / stored edge as read by
`check_relationship_conflict`: source, target, edge type and the
`json.dumps`-serialized properties text (the function only ever passes the
properties through `json.dumps` into the similarity call, so the embedding
carries the serialized string; `rtype` embeds the dict key `type`). -/
structure Rel where
  source_name : String
  target_name : String
  rtype : String
  properties : String
deriving DecidableEq

/-- `check_relationship_conflict` (conflict_resolution.py lines 40-59),
parameterized by the external text-similarity collaborator `sim`
(`compute_semantic_similarity`, which clamps into [0,1] and is total).  The
loop returns `True` at the first existing edge with the same
`(source_name, target_name, type)` whose serialized-property similarity is
*strictly* greater than 0.7, and `False` after the loop otherwise. -/
def check_relationship_conflict (sim : String → String → ℚ) (rel : Rel)
    (existing_rels : List Rel) : Bool :=
  existing_rels.any fun e =>
    rel.source_name = e.source_name ∧ rel.target_name = e.target_name ∧
      rel.rtype = e.rtype ∧ (7:ℚ)/10 < sim rel.properties e.properties

/-! ## Conflict queue reading
(`src/conflict_resolution.py`, `ConflictResolver.get_conflict_log`) -/

/-- `get_conflict_log` (conflict_resolution.py lines 61-75), over the list of
lines of the conflict queue file and parameterized by the decoder
`parse : String → Option α` standing for `json.loads(line.strip())`
(`none` = the line is malformed and `json.loads` raises `JSONDecodeError`).
Each line is tried in order; a malformed line is logged and skipped and the
loop continues with the next line. -/
def get_conflict_log (parse : String → Option α) : List String → List α
  | [] => []
  | line :: rest =>
      match parse line with
      | some r => r :: get_conflict_log parse rest
      | none => get_conflict_log parse rest

/-! ## Merge transaction
(`src/knowledge_graph_updater.py`, `KnowledgeGraphUpdater`) -/

/-- The incoming data record of `update_knowledge_graph` / `tx_work`;
every key may be absent. -/
structure InData where
  name : Option String
  location : Option String
  address : Option String
  description : Option String
  pub_timestamp : Option String
  best_comment : Option String
  source_type : Option String
  metrics : Option String
  ranking : Option String
  visitor_percentage : Option String
deriving DecidableEq

/-- `preprocess_data` (knowledge_graph_updater.py lines 13-17): the alias
纳木错 is normalized to the canonical name 纳木措. -/
def preprocess_data (d : InData) : InData :=
  if d.name = some "纳木错" then { d with name := some "纳木措" } else d

/-- The properties of an `Attraction` node as assembled by `tx_work`
(knowledge_graph_updater.py lines 32-43). -/
structure AttractionProps where
  name : String
  location : String
  address : String
  description : String
  pub_timestamp : String
  best_comment : String
  source_type : String
  metrics : String
  ranking : String
  visitor_percentage : String
deriving DecidableEq

/-- The properties of an `UpdateLog` node (knowledge_graph_updater.py
lines 100-107). -/
structure UpdateLogProps where
  name : String
  log_id : String
  entity_name : String
  reason : String
  weights : String
  timestamp : String
deriving DecidableEq

/-- The graph store as touched by `tx_work`: `Attraction` nodes keyed by name,
`City` nodes (whose only property is their name key), `LOCATED_IN` edges keyed
by the (attraction, city) node pair carrying their `reason` property, and
`UpdateLog` nodes keyed by their `name` (= log id). -/
structure Store where
  attractions : List (String × AttractionProps)
  cities : List String
  located_in : List ((String × String) × String)
  update_logs : List (String × UpdateLogProps)
deriving DecidableEq

/-- Cypher `MERGE (n {key}) SET n += props` on a keyed node table: update the
existing row in place, or append a new one. -/
def upsert [DecidableEq α] (k : α) (v : β) : List (α × β) → List (α × β)
  | [] => [(k, v)]
  | (k2, v2) :: rest => if k2 = k then (k, v) :: rest else (k2, v2) :: upsert k v rest

/-- Look a key up in a keyed node table. -/
def assocFind [DecidableEq α] (k : α) : List (α × β) → Option β
  | [] => none
  | (k2, v2) :: rest => if k2 = k then some v2 else assocFind k rest

/-- `MERGE (c:City {name})` — the node's only property is its key. -/
def upsertCity (n : String) (cs : List String) : List String :=
  if n ∈ cs then cs else cs ++ [n]

/-- The attraction property map assembled at knowledge_graph_updater.py
lines 32-43, with every `data.get(key, default)`.  `nowIso` stands for the ISO
string produced by `datetime.now(timezone(timedelta(hours=8))).isoformat()`
inside this transaction (the `+ "+08:00"` suffix quirk of the default has no
bearing on any claim). -/
def mkAttraction (nowIso : String) (d : InData) : AttractionProps :=
  { name := d.name.getD ""
    location := d.location.getD "拉萨市"
    address := d.address.getD ""
    description := d.description.getD ("Description for " ++ d.name.getD "Unknown")
    pub_timestamp := d.pub_timestamp.getD nowIso
    best_comment := d.best_comment.getD ""
    source_type := d.source_type.getD "crawler"
    metrics := d.metrics.getD "\x7b\x7d"
    ranking := d.ranking.getD ""
    visitor_percentage := d.visitor_percentage.getD "" }

/-- `tx_work` (knowledge_graph_updater.py lines 30-113): skip entirely when
the assembled name or location is falsy; otherwise `MERGE` the `Attraction`
node (setting all assembled properties), `MERGE` the `City` node, `MERGE` the
`LOCATED_IN` edge between them (setting its `reason`), and `MERGE` the
`UpdateLog` node keyed by `name = log_id` (setting all log properties).
`nowIso` is the transaction's clock for the attraction's default
`pub_timestamp`; `nowIso2` the one for the log entry's `timestamp`; `weights`
stands for `str(weights)`.  The store `MERGE` calls always succeed in the
model (the mid-transaction failure branches only log and return/continue). -/
def tx_work (nowIso nowIso2 : String) (d : InData) (reason log_id weights : String)
    (s : Store) : Store :=
  let a := mkAttraction nowIso d
  if a.name = "" ∨ a.location = "" then s
  else
    let s1 : Store := { s with attractions := upsert a.name a s.attractions }
    let s2 : Store := { s1 with cities := upsertCity a.location s1.cities }
    let s3 : Store := { s2 with located_in := upsert (a.name, a.location) reason s2.located_in }
    let logp : UpdateLogProps :=
      { name := log_id, log_id := log_id, entity_name := a.name
        reason := reason, weights := weights, timestamp := nowIso2 }
    { s3 with update_logs := upsert log_id logp s3.update_logs }

/-- `update_knowledge_graph` (knowledge_graph_updater.py lines 19-28): raise
`ValueError` when `data.get("name")` is falsy (absent or empty), otherwise run
`tx_work` on the preprocessed data inside one write transaction. -/
def update_knowledge_graph (nowIso nowIso2 : String) (d : InData)
    (log_id reason weights : String) (s : Store) : Except String Store :=
  match d.name with
  | none => Except.error "Data must include name field"
  | some nm =>
      if nm = "" then Except.error "Data must include name field"
      else Except.ok (tx_work nowIso nowIso2 (preprocess_data d) reason log_id weights s)

/-! ## Helper lemmas about the stable descending sort -/

/-- `insertDesc` merely inserts: the result is a permutation of `x :: l`. -/
theorem insertDesc_perm (k : α → ℚ) (x : α) (l : List α) :
    List.Perm (insertDesc k x l) (x :: l) := by
  induction l with
  | nil => simp [insertDesc]
  | cons y ys ih =>
      by_cases h : k y ≤ k x
      · simp [insertDesc, h]
      · simp only [insertDesc, if_neg h]
        exact (ih.cons y).trans (List.Perm.swap x y ys)

/-- `sortDesc` permutes its input. -/
theorem sortDesc_perm (k : α → ℚ) (l : List α) : List.Perm (sortDesc k l) l := by
  induction l with
  | nil => simp [sortDesc]
  | cons x xs ih => exact (insertDesc_perm k x (sortDesc k xs)).trans (ih.cons x)

/-- Head of the stable descending sort of a nonempty list: it is an element
`w` of the list that attains the maximal key, and every element listed before
`w`'s occurrence has a strictly smaller key (this is exactly the element
`sorted(l, key=k, reverse=True)[0]` that Python's stable sort selects). -/
theorem sortDesc_head_spec (k : α → ℚ) (x : α) (xs : List α) :
    ∃ w l₁ l₂, (sortDesc k (x :: xs)).head? = some w ∧
      x :: xs = l₁ ++ w :: l₂ ∧ (∀ y ∈ l₁, k y < k w) ∧ ∀ y ∈ x :: xs, k y ≤ k w := by
  induction xs generalizing x with
  | nil =>
      refine ⟨x, [], [], rfl, rfl, by simp, ?_⟩
      intro y hy
      simp only [List.mem_singleton] at hy
      simp [hy]
  | cons z zs ih =>
      obtain ⟨m, p, q, hm, hdecomp, hlt, hle⟩ := ih z
      obtain ⟨rest, hrest⟩ : ∃ rest, sortDesc k (z :: zs) = m :: rest := by
        cases h : sortDesc k (z :: zs) with
        | nil => rw [h] at hm; simp at hm
        | cons a t =>
            rw [h] at hm
            simp only [List.head?, Option.some.injEq] at hm
            exact ⟨t, by rw [hm]⟩
      by_cases hcmp : k m ≤ k x
      · refine ⟨x, [], z :: zs, ?_, rfl, by simp, ?_⟩
        · show (insertDesc k x (sortDesc k (z :: zs))).head? = some x
          rw [hrest]
          simp [insertDesc, hcmp]
        · intro y hy
          rcases List.mem_cons.1 hy with h | h
          · simp [h]
          · exact le_trans (hle y h) hcmp
      · push_neg at hcmp
        refine ⟨m, x :: p, q, ?_, ?_, ?_, ?_⟩
        · show (insertDesc k x (sortDesc k (z :: zs))).head? = some m
          rw [hrest]
          simp [insertDesc, not_le.2 hcmp]
        · rw [List.cons_append, ← hdecomp]
        · intro y hy
          rcases List.mem_cons.1 hy with h | h
          · rw [h]; exact hcmp
          · exact hlt y h
        · intro y hy
          rcases List.mem_cons.1 hy with h | h
          · rw [h]; exact le_of_lt hcmp
          · exact hle y h

/-! ## Helper lemmas about keyed upserts -/

theorem assocFind_upsert_self [DecidableEq α] (k : α) (v : β) (L : List (α × β)) :
    assocFind k (upsert k v L) = some v := by
  induction L with
  | nil => simp [upsert, assocFind]
  | cons p rest ih =>
      by_cases h : p.1 = k
      · simp [upsert, assocFind, h]
      · simpa [upsert, assocFind, h] using ih

theorem upsert_upsert_same [DecidableEq α] (k : α) (v : β) (L : List (α × β)) :
    upsert k v (upsert k v L) = upsert k v L := by
  induction L with
  | nil => simp [upsert]
  | cons p rest ih =>
      by_cases h : p.1 = k
      · simp [upsert, h]
      · simp [upsert, h, ih]

theorem upsert_length_found [DecidableEq α] {k : α} {L : List (α × β)}
    (h : (assocFind k L).isSome) (v : β) : (upsert k v L).length = L.length := by
  induction L with
  | nil => simp [assocFind] at h
  | cons p rest ih =>
      by_cases hp : p.1 = k
      · simp [upsert, hp]
      · simp only [assocFind, if_neg hp] at h
        simp [upsert, hp, ih h]

theorem upsert_length_new [DecidableEq α] {k : α} {L : List (α × β)}
    (h : assocFind k L = none) (v : β) : (upsert k v L).length = L.length + 1 := by
  induction L with
  | nil => simp [upsert]
  | cons p rest ih =>
      by_cases hp : p.1 = k
      · simp [assocFind, hp] at h
      · simp only [assocFind, if_neg hp] at h
        simp [upsert, hp, ih h]

theorem upsertCity_idem (n : String) (cs : List String) :
    upsertCity n (upsertCity n cs) = upsertCity n cs := by
  by_cases h : n ∈ cs
  · simp [upsertCity, h]
  · simp [upsertCity, h]

/-! ## Helper lemmas about the hybrid explanation dict -/

/-- The url key of a fact, when its source carries one. -/
def urlKey (f : Fact) : Option String := f.source.bind fun s => s.url

theorem dictInsert_find_self (k : String) (v : ScoreEntry) (d : List (String × ScoreEntry)) :
    assocFind k (dictInsert k v d) = some v := by
  induction d with
  | nil => simp [dictInsert, assocFind]
  | cons p rest ih =>
      by_cases h : p.1 = k
      · simp [dictInsert, assocFind, h]
      · simpa [dictInsert, assocFind, h] using ih

theorem dictInsert_find_ne {k u : String} (h : u ≠ k) (v : ScoreEntry)
    (d : List (String × ScoreEntry)) :
    assocFind u (dictInsert k v d) = assocFind u d := by
  induction d with
  | nil => simp [dictInsert, assocFind, Ne.symm h]
  | cons p rest ih =>
      by_cases hp : p.1 = k
      · simp [dictInsert, assocFind, hp, Ne.symm h]
      · by_cases hu : p.1 = u
        · simp [dictInsert, assocFind, hp, hu, h]
        · simp [dictInsert, assocFind, hp, hu, ih]

theorem dictInsert_length_new {k : String} {d : List (String × ScoreEntry)}
    (h : assocFind k d = none) (v : ScoreEntry) :
    (dictInsert k v d).length = d.length + 1 := by
  induction d with
  | nil => simp [dictInsert]
  | cons p rest ih =>
      by_cases hp : p.1 = k
      · simp [assocFind, hp] at h
      · simp only [assocFind, if_neg hp] at h
        simp [dictInsert, hp, ih h]

/-- Facts whose url keys all differ from `u` never touch the dict entry at
`u`. -/
theorem buildScores_find_untouched (now : ℚ) (u : String) :
    ∀ (fs : List Fact) (i : ℕ) (d : List (String × ScoreEntry)),
      (∀ g ∈ fs, (urlKey g).isSome) → (∀ g ∈ fs, urlKey g ≠ some u) →
      assocFind u (buildScores now i fs d) = assocFind u d := by
  intro fs
  induction fs with
  | nil => intro i d _ _; rfl
  | cons g gs ih =>
      intro i d hsome hne
      obtain ⟨ug, hug⟩ := Option.isSome_iff_exists.1 (hsome g (List.mem_cons_self g gs))
      have hkey : dictKey i g = ug := by
        simp [dictKey, urlKey] at hug ⊢
        simp [hug]
      have hne_u : u ≠ dictKey i g := by
        rw [hkey]
        intro hc
        exact (hne g (List.mem_cons_self g gs)) (by rw [hug, hc])
      show assocFind u (buildScores now (i + 1) gs
          (dictInsert (dictKey i g) (hybridScoreEntry now g) d)) = assocFind u d
      rw [ih (i + 1) _ (fun g' hg' => hsome g' (List.mem_cons_of_mem g hg'))
          (fun g' hg' => hne g' (List.mem_cons_of_mem g hg')),
        dictInsert_find_ne hne_u]

/-- When every candidate carries a url and the urls are pairwise distinct, the
explanation dict maps each candidate's url to exactly that candidate's score
entry. -/
theorem buildScores_find_mem (now : ℚ) :
    ∀ (fs : List Fact) (i : ℕ) (d : List (String × ScoreEntry)) (f : Fact),
      f ∈ fs → (∀ g ∈ fs, (urlKey g).isSome) →
      fs.Pairwise (fun a b => urlKey a ≠ urlKey b) →
      ∀ u, urlKey f = some u →
      assocFind u (buildScores now i fs d) = some (hybridScoreEntry now f) := by
  intro fs
  induction fs with
  | nil => intro i d f hf; exact absurd hf (List.not_mem_nil f)
  | cons g gs ih =>
      intro i d f hf hsome hpw u hu
      rcases List.mem_cons.1 hf with hfg | hfgs
      · subst hfg
        have hkey : dictKey i f = u := by
          simp [dictKey, urlKey] at hu ⊢
          simp [hu]
        show assocFind u (buildScores now (i + 1) gs
            (dictInsert (dictKey i f) (hybridScoreEntry now f) d)) = _
        rw [buildScores_find_untouched now u gs (i + 1) _
            (fun g' hg' => hsome g' (List.mem_cons_of_mem f hg'))
            (fun g' hg' hc => (List.pairwise_cons.1 hpw).1 g' hg' (by rw [hu, hc])),
          hkey, dictInsert_find_self]
      · exact ih (i + 1) _ f hfgs (fun g' hg' => hsome g' (List.mem_cons_of_mem g hg'))
          (List.pairwise_cons.1 hpw).2 u hu

/-- With pairwise-distinct url keys not yet present in the accumulator, the
explanation dict gains exactly one entry per candidate. -/
theorem buildScores_length (now : ℚ) :
    ∀ (fs : List Fact) (i : ℕ) (d : List (String × ScoreEntry)),
      (∀ g ∈ fs, (urlKey g).isSome) →
      fs.Pairwise (fun a b => urlKey a ≠ urlKey b) →
      (∀ g ∈ fs, ∀ u, urlKey g = some u → assocFind u d = none) →
      (buildScores now i fs d).length = d.length + fs.length := by
  intro fs
  induction fs with
  | nil => intro i d _ _ _; rfl
  | cons g gs ih =>
      intro i d hsome hpw hfresh
      obtain ⟨ug, hug⟩ := Option.isSome_iff_exists.1 (hsome g (List.mem_cons_self g gs))
      have hkey : dictKey i g = ug := by
        simp [dictKey, urlKey] at hug ⊢
        simp [hug]
      show (buildScores now (i + 1) gs
          (dictInsert (dictKey i g) (hybridScoreEntry now g) d)).length = _
      rw [ih (i + 1) _ (fun g' hg' => hsome g' (List.mem_cons_of_mem g hg'))
          (List.pairwise_cons.1 hpw).2 ?_, hkey,
        dictInsert_length_new (by rw [hkey] at *; exact hfresh g (List.mem_cons_self g gs) ug hug)
          (hybridScoreEntry now g)]
      · simp [List.length_cons]
        ring
      · intro g' hg' u' hu'
        have hne : u' ≠ dictKey i g := by
          rw [hkey]
          intro hc
          exact (List.pairwise_cons.1 hpw).1 g' hg' (by rw [hug, ← hc, ← hu'])
        rw [dictInsert_find_ne hne]
        exact hfresh g' (List.mem_cons_of_mem g hg') u' hu'

/-! ## Claim C2 — resolvers always return one winner drawn from the input -/

/-- A fact with a timezone-aware timestamp, as every fact of the repository's
own experiment data has (`"2023-05-20T09:15:00Z"`-style). -/
def c2FactAware : Fact :=
  { entity_name := "布达拉宫", attr := "描述", value := "v1"
    source := some { stype := some "government", url := some "http://gov.cn/palace_info"
                     weight := some (9/10) }
    timestamp := Ts.aware 19497 }

/-- A fact whose `timestamp` key is absent. -/
def c2FactNoTs : Fact :=
  { entity_name := "布达拉宫", attr := "描述", value := "v2"
    source := some { stype := some "blog", url := some "http://travel-blog.com/lhasa"
                     weight := some (4/10) }
    timestamp := Ts.missing }

/-- C2: the claim states that each of the three resolvers, on every non-empty
fact list, returns exactly one winner drawn from the input and never fails to
return.  `resolve_conflict_latest_first` violates this: on a two-fact list
mixing a timezone-aware timestamp with a missing one, the missing timestamp is
replaced by the timezone-naive `datetime.min`, and Python's `sorted` raises an
uncaught `TypeError` when it compares the aware key with the naive key, so the
function fails to return.  The code's own `try/except` around timestamp
parsing shows the intent was a total function, so this is a code bug. -/
theorem latest_first_raises_on_mixed_timestamps :
    resolve_conflict_latest_first [c2FactAware, c2FactNoTs] = Except.error () := rfl

/-! ## Claim C3 — LatestFirst returns the latest; unparsable never wins -/

/-- A fact with a timezone-aware timestamp (for the C3 counterexample). -/
def c3FactAware : Fact :=
  { entity_name := "大昭寺", attr := "游览时间", value := "2-3小时"
    source := some { stype := some "travel_site", url := some "http://travel.com/temple"
                     weight := some (6/10) }
    timestamp := Ts.aware 18696 }

/-- A fact with an unparsable timestamp string (for the C3 counterexample). -/
def c3FactInvalid : Fact :=
  { entity_name := "大昭寺", attr := "游览时间", value := "1.5-2小时"
    source := some { stype := some "travel_site", url := some "http://visit-tibet.com/jokhang"
                     weight := some (65/100) }
    timestamp := Ts.invalid }

/-- C3 counterexample: the claim says `resolve_conflict_latest_first` returns
the fact with the latest parsed timestamp and that an unparsable timestamp
sorts to the minimum and never wins.  On a list pairing a timezone-aware
timestamp with an unparsable one, the function instead raises `TypeError`
(the unparsable timestamp became the timezone-naive `datetime.min`, which
Python cannot order against an aware datetime), so no fact at all is
returned. -/
theorem latest_first_cex :
    resolve_conflict_latest_first [c3FactAware, c3FactInvalid] = Except.error () := rfl

/-- C3 as amended: on a non-empty list all of whose parsed timestamps are
timezone-naive (missing and unparsable ones become the naive `datetime.min`,
ordinal 0), `resolve_conflict_latest_first` returns a winner from the list
whose parsed timestamp is maximal, and whenever some fact carries a valid
timestamp later than `datetime.min`, the winner is not a fact with a missing
or unparsable timestamp. -/
theorem latest_first_naive_spec (x : Fact) (xs : List Fact)
    (hnaive : ∀ f ∈ x :: xs, lfAware f = false) :
    ∃ w, resolve_conflict_latest_first (x :: xs) = Except.ok (some w) ∧
      w ∈ x :: xs ∧ (∀ f ∈ x :: xs, lfKey f ≤ lfKey w) ∧
      ∀ g ∈ x :: xs, ∀ t : ℚ, g.timestamp = Ts.naive t → 0 < t →
        w.timestamp ≠ Ts.missing ∧ w.timestamp ≠ Ts.invalid := by
  have hany : ((x :: xs).any fun f => lfAware f) = false := by
    rw [List.any_eq_false]
    intro f hf
    simp [hnaive f hf]
  obtain ⟨w, l₁, l₂, hw, hdec, _, hle⟩ := sortDesc_head_spec lfKey x xs
  refine ⟨w, ?_, ?_, hle, ?_⟩
  · simp [resolve_conflict_latest_first, hany, hw]
  · rw [hdec]
    exact List.mem_append_right l₁ (List.mem_cons_self w l₂)
  · intro g hg t hgt ht
    have hkg : lfKey g = t := by simp [lfKey, parse_timestamp, hgt]
    have hwt : 0 < lfKey w := lt_of_lt_of_le (hkg ▸ ht) (hle g hg)
    constructor
    · intro hc
      rw [show lfKey w = 0 from by simp [lfKey, parse_timestamp, hc]] at hwt
      exact lt_irrefl 0 hwt
    · intro hc
      rw [show lfKey w = 0 from by simp [lfKey, parse_timestamp, hc]] at hwt
      exact lt_irrefl 0 hwt

/-- A fact with a valid naive timestamp (for the C3 witness). -/
def c3wValid : Fact :=
  { entity_name := "e", attr := "a", value := "v1"
    source := some { stype := none, url := some "http://u1", weight := some (1/2) }
    timestamp := Ts.naive 100 }

/-- A fact with an unparsable timestamp (for the C3 witness). -/
def c3wInvalid : Fact :=
  { entity_name := "e", attr := "a", value := "v2"
    source := some { stype := none, url := some "http://u2", weight := some (1/2) }
    timestamp := Ts.invalid }

/-- Witness for `latest_first_naive_spec` at a concrete two-fact input. -/
theorem latest_first_naive_spec_witness :
    (∀ f ∈ [c3wInvalid, c3wValid], lfAware f = false) ∧
    ∃ w, resolve_conflict_latest_first [c3wInvalid, c3wValid] = Except.ok (some w) ∧
      w ∈ [c3wInvalid, c3wValid] ∧ (∀ f ∈ [c3wInvalid, c3wValid], lfKey f ≤ lfKey w) ∧
      ∀ g ∈ [c3wInvalid, c3wValid], ∀ t : ℚ, g.timestamp = Ts.naive t → 0 < t →
        w.timestamp ≠ Ts.missing ∧ w.timestamp ≠ Ts.invalid :=
  ⟨by decide, latest_first_naive_spec c3wInvalid [c3wValid] (by decide)⟩

/-! ## Claim C5 — relationship conflict flagged exactly at similarity ≥ 0.7 -/

/-- A proposed relationship (for the C5 counterexample). -/
def c5Rel : Rel :=
  { source_name := "布达拉宫", target_name := "拉萨市", rtype := "LOCATED_IN"
    properties := "props-proposed" }

/-- An existing relationship with the same `(source, target, type)` triple. -/
def c5Existing : Rel :=
  { source_name := "布达拉宫", target_name := "拉萨市", rtype := "LOCATED_IN"
    properties := "props-existing" }

/-- C5 counterexample: the claim says a conflict is flagged exactly when the
similarity is ≥ 0.7.  With a similarity collaborator returning exactly 0.7 for
an existing edge with the same `(source, target, type)` triple, the code does
not flag a conflict: the threshold test at conflict_resolution.py line 50 is
the strict `similarity > 0.7`. -/
theorem check_relationship_conflict_cex :
    check_relationship_conflict (fun _ _ => 7/10) c5Rel [c5Existing] = false ∧
    c5Rel.source_name = c5Existing.source_name ∧
    c5Rel.target_name = c5Existing.target_name ∧
    c5Rel.rtype = c5Existing.rtype := by
  refine ⟨?_, rfl, rfl, rfl⟩
  simp [check_relationship_conflict, c5Rel, c5Existing, lt_irrefl]

/-- C5 as amended: `check_relationship_conflict` flags a conflict exactly when
some existing edge shares the same `(source, target, type)` and the similarity
between the serialized properties is *strictly greater than* 0.7; similarity
exactly 0.7 — and in particular similarity 0 — is never flagged. -/
theorem check_relationship_conflict_iff (sim : String → String → ℚ) (rel : Rel)
    (existing_rels : List Rel) :
    check_relationship_conflict sim rel existing_rels = true ↔
      ∃ e ∈ existing_rels, rel.source_name = e.source_name ∧
        rel.target_name = e.target_name ∧ rel.rtype = e.rtype ∧
        (7:ℚ)/10 < sim rel.properties e.properties := by
  simp [check_relationship_conflict, List.any_eq_true]

/-! ## Claim C6 — empty input: sentinel plus explanation, without raising -/

/-- C6 counterexample: the claim says each of the three resolvers returns the
"no winner" sentinel *together with an explanation stating that no facts were
supplied*.  The weight-first and latest-first resolvers return only the bare
`{}` sentinel — their Python return value is a single dict and carries no
explanation at all (only the hybrid resolver returns one). -/
theorem empty_input_no_explanation_cex :
    resolve_conflict_weight_first [] = none ∧
    (weight_first_explanation []).isNone = true ∧
    (latest_first_explanation []).isNone = true :=
  ⟨rfl, rfl, rfl⟩

/-- C6 as amended: on the empty input list none of the three resolvers raises;
each returns the `{}` sentinel (`none`); the hybrid resolver additionally
returns an explanation whose reason states that no conflicting facts were
supplied, while the weight-first and latest-first resolvers return the bare
sentinel with no explanation. -/
theorem empty_input_behavior (now : ℚ) :
    resolve_conflict_weight_first [] = none ∧
    resolve_conflict_latest_first [] = Except.ok none ∧
    resolve_conflict_with_hybrid now [] =
      (none, { reason := "没有提供冲突事实", scores := [] }) ∧
    weight_first_explanation [] = none ∧
    latest_first_explanation [] = none :=
  ⟨rfl, rfl, rfl, rfl, rfl⟩

/-! ## Claim C10 — conflict-queue reading tolerates malformed lines -/

/-- A toy decoder standing for `json.loads`: the line `"BAD"` is malformed,
every other line decodes to itself. -/
def c10Decoder : String → Option String :=
  fun s => if s = "BAD" then none else some s

/-- C10 counterexample: the claim speaks of one malformed line among *ten
valid* records and asserts that exactly *nine* records are returned.  For a
file with ten valid lines plus one malformed line, `get_conflict_log` returns
all ten valid records, not nine. -/
theorem get_conflict_log_cex :
    (get_conflict_log c10Decoder
      ["r1", "r2", "r3", "r4", "r5", "r6", "r7", "r8", "r9", "r10", "BAD"]).length = 10 ∧
    (10 : ℕ) ≠ 9 :=
  ⟨rfl, by decide⟩

/-- `get_conflict_log` distributes over concatenation of the line list. -/
theorem get_conflict_log_append (parse : String → Option α) (a b : List String) :
    get_conflict_log parse (a ++ b) =
      get_conflict_log parse a ++ get_conflict_log parse b := by
  induction a with
  | nil => rfl
  | cons x xs ih =>
      show get_conflict_log parse (x :: (xs ++ b)) = _
      cases hp : parse x <;> simp [get_conflict_log, hp, ih]

/-- On lines that all decode, `get_conflict_log` returns one record per line
in order. -/
theorem get_conflict_log_all_good (parse : String → Option α) (f : String → α) :
    ∀ l : List String, (∀ s ∈ l, parse s = some (f s)) →
      get_conflict_log parse l = l.map f := by
  intro l
  induction l with
  | nil => intro _; rfl
  | cons x xs ih =>
      intro h
      have hx := h x (List.mem_cons_self x xs)
      simp [get_conflict_log, hx, ih (fun s hs => h s (List.mem_cons_of_mem x hs))]

/-- C10 as amended: for a ten-line file of which exactly one line is malformed
(and the other nine decode), `get_conflict_log` returns exactly the nine valid
records in file order, skipping the malformed line without aborting the rest
of the read. -/
theorem get_conflict_log_skips_malformed {α : Type} (parse : String → Option α)
    (l₁ l₂ : List String) (bad : String) (f : String → α)
    (hgood : ∀ s ∈ l₁ ++ l₂, parse s = some (f s)) (hbad : parse bad = none)
    (hlen : l₁.length + l₂.length = 9) :
    get_conflict_log parse (l₁ ++ bad :: l₂) = (l₁ ++ l₂).map f ∧
    (get_conflict_log parse (l₁ ++ bad :: l₂)).length = 9 := by
  have h1 : ∀ s ∈ l₁, parse s = some (f s) :=
    fun s hs => hgood s (List.mem_append_left l₂ hs)
  have h2 : ∀ s ∈ l₂, parse s = some (f s) :=
    fun s hs => hgood s (List.mem_append_right l₁ hs)
  have heq : get_conflict_log parse (l₁ ++ bad :: l₂) = (l₁ ++ l₂).map f := by
    rw [get_conflict_log_append, show get_conflict_log parse (bad :: l₂) =
        get_conflict_log parse l₂ from by simp [get_conflict_log, hbad],
      get_conflict_log_all_good parse f l₁ h1,
      get_conflict_log_all_good parse f l₂ h2, List.map_append]
  refine ⟨heq, ?_⟩
  rw [heq, List.length_map, List.length_append, hlen]

/-- Witness for `get_conflict_log_skips_malformed` at a concrete ten-line
file. -/
theorem get_conflict_log_skips_malformed_witness :
    get_conflict_log c10Decoder
        (["a", "b", "c", "d"] ++ "BAD" :: ["e", "f", "g", "h", "i"]) =
      (["a", "b", "c", "d"] ++ ["e", "f", "g", "h", "i"]).map (fun s => s) ∧
    (get_conflict_log c10Decoder
        (["a", "b", "c", "d"] ++ "BAD" :: ["e", "f", "g", "h", "i"])).length = 9 :=
  get_conflict_log_skips_malformed c10Decoder ["a", "b", "c", "d"]
    ["e", "f", "g", "h", "i"] "BAD" (fun s => s) (by decide) (by decide) (by decide)

/-! ## Claim C7 — the dynamic weight formula -/

theorem clamp01_nonneg (q : ℚ) : 0 ≤ max 0 (min 1 q) := le_max_left 0 _

theorem clamp01_le_one (q : ℚ) : max 0 (min 1 q) ≤ 1 :=
  max_le (by norm_num) (min_le_left 1 q)

/-- Crawler-sourced data with no timestamp (for the C7 counterexample). -/
def c7Data : WData := { source_type := some "crawler", pub_timestamp := Ts.missing }

/-- A metrics bundle with a rating of 10 (outside the assumed 0–5 range). -/
def c7Metrics : Metrics := { ratings := some 10 }

/-- C7 counterexample: the claim clamps `rating/5` into [0,1] *before*
multiplying by the source-type multiplier, which would give
`clamp(10/5) * 0.8 = 0.8` here; the code instead multiplies first and clamps
only the final product, giving `clamp(2 * 0.8) = 1`. -/
theorem compute_dynamic_weight_cex :
    compute_dynamic_weight 0 c7Data c7Metrics = 1 ∧
    dynamicWeightSpec 0 c7Data c7Metrics = 4/5 ∧
    (1 : ℚ) ≠ 4/5 := by
  refine ⟨?_, ?_, by norm_num⟩
  · show max 0 (min 1 ((10:ℚ)/5 * (8/10))) = 1
    norm_num
  · show max 0 (min 1 ((10:ℚ)/5)) * (8/10) = 4/5
    norm_num

/-- C7 as amended: `compute_dynamic_weight` always lies in [0,1]; the single
clamp is applied to the final product, so the result agrees with the claim's
formula `clamp(rating/5,0,1) * multiplier * freshness` whenever the rating
lies in the assumed 0–5 range (and, for a dated record, the record is not from
the future); an unparsable timestamp yields 0, and so does a timezone-naive
timestamp (the aware `now.astimezone()` minus a naive datetime raises
`TypeError`, caught by the same fail-soft arm). -/
theorem compute_dynamic_weight_spec (now : ℚ) (data : WData) (metrics : Metrics)
    (r t : ℚ) :
    (0 ≤ compute_dynamic_weight now data metrics ∧
      compute_dynamic_weight now data metrics ≤ 1) ∧
    (metrics.ratings = some r → 0 ≤ r → r ≤ 5 → data.pub_timestamp = Ts.missing →
      compute_dynamic_weight now data metrics = dynamicWeightSpec now data metrics) ∧
    (metrics.ratings = some r → 0 ≤ r → r ≤ 5 → data.pub_timestamp = Ts.aware t →
      0 ≤ ⌊now - t⌋ →
      compute_dynamic_weight now data metrics = dynamicWeightSpec now data metrics) ∧
    (data.pub_timestamp = Ts.invalid → compute_dynamic_weight now data metrics = 0) ∧
    (∀ t2 : ℚ, data.pub_timestamp = Ts.naive t2 →
      compute_dynamic_weight now data metrics = 0) := by
  obtain ⟨st, pts⟩ := data
  obtain ⟨mr⟩ := metrics
  refine ⟨?_, ?_, ?_, ?_, ?_⟩
  · cases pts with
    | missing => exact ⟨clamp01_nonneg _, clamp01_le_one _⟩
    | invalid => exact ⟨le_refl 0, show (0:ℚ) ≤ 1 by norm_num⟩
    | naive t2 => exact ⟨le_refl 0, show (0:ℚ) ≤ 1 by norm_num⟩
    | aware t2 => exact ⟨clamp01_nonneg _, clamp01_le_one _⟩
  · intro hr h0 h5 hts
    cases hts
    cases hr
    have hb0 : (0:ℚ) ≤ r / 5 := by positivity
    have hb1 : r / 5 ≤ 1 := by
      rw [div_le_one (by norm_num)]
      linarith
    show max 0 (min 1 (if st = some "crawler" then r / 5 * (8/10) else r / 5)) =
      max 0 (min 1 (r / 5)) * (if st = some "crawler" then (8:ℚ)/10 else 1)
    rw [min_eq_right hb1, max_eq_right hb0]
    by_cases hc : st = some "crawler"
    · rw [if_pos hc, if_pos hc,
        min_eq_right (by nlinarith : r / 5 * (8/10) ≤ 1),
        max_eq_right (by positivity)]
    · rw [if_neg hc, if_neg hc, min_eq_right hb1, max_eq_right hb0, mul_one]
  · intro hr h0 h5 hts hage
    cases hts
    cases hr
    have hb0 : (0:ℚ) ≤ r / 5 := by positivity
    have hb1 : r / 5 ≤ 1 := by
      rw [div_le_one (by norm_num)]
      linarith
    have hd0 : (0:ℚ) ≤ ((⌊now - t⌋ : ℤ) : ℚ) := by exact_mod_cast hage
    have hf0 : (0:ℚ) ≤ max 0 (1 - ((⌊now - t⌋ : ℤ) : ℚ) / 365) := le_max_left 0 _
    have hf1 : max 0 (1 - ((⌊now - t⌋ : ℤ) : ℚ) / 365) ≤ 1 := by
      refine max_le (by norm_num) ?_
      have : (0:ℚ) ≤ ((⌊now - t⌋ : ℤ) : ℚ) / 365 := by positivity
      linarith
    show max 0 (min 1 ((if st = some "crawler" then r / 5 * (8/10) else r / 5) *
        max 0 (1 - ((⌊now - t⌋ : ℤ) : ℚ) / 365))) =
      max 0 (min 1 (r / 5)) * (if st = some "crawler" then (8:ℚ)/10 else 1) *
        max 0 (1 - ((⌊now - t⌋ : ℤ) : ℚ) / 365)
    rw [min_eq_right hb1, max_eq_right hb0]
    by_cases hc : st = some "crawler"
    · rw [if_pos hc, if_pos hc,
        min_eq_right (by nlinarith : r / 5 * (8/10) *
          max 0 (1 - ((⌊now - t⌋ : ℤ) : ℚ) / 365) ≤ 1),
        max_eq_right (by positivity)]
    · rw [if_neg hc, if_neg hc,
        min_eq_right (by nlinarith : r / 5 *
          max 0 (1 - ((⌊now - t⌋ : ℤ) : ℚ) / 365) ≤ 1),
        max_eq_right (by positivity), mul_one]
  · intro hts
    cases hts
    rfl
  · intro t2 hts
    cases hts
    rfl

/-- Manually-curated data with no timestamp (for the C7 witness). -/
def c7wData : WData := { source_type := some "manual", pub_timestamp := Ts.missing }

/-- A metrics bundle with an in-range rating (for the C7 witness). -/
def c7wMetrics : Metrics := { ratings := some 4 }

/-- Witness for `compute_dynamic_weight_spec` at a concrete in-range input. -/
theorem compute_dynamic_weight_spec_witness :
    compute_dynamic_weight 0 c7wData c7wMetrics = dynamicWeightSpec 0 c7wData c7wMetrics :=
  (compute_dynamic_weight_spec 0 c7wData c7wMetrics 4 0).2.1 rfl (by norm_num)
    (by norm_num) rfl

/-! ## Claim C8 — the default weight for facts without a source weight -/

/-- A fact whose source carries no weight (for the C8 counterexample). -/
def c8FactNoWeight : Fact :=
  { entity_name := "纳木错", attr := "门票", value := "120元"
    source := some { stype := some "official_tourism", url := some "http://tibet.gov/namtso"
                     weight := none }
    timestamp := Ts.missing }

/-- A fact with explicit source weight 0.4 (for the C8 counterexample). -/
def c8Fact04 : Fact :=
  { entity_name := "纳木错", attr := "门票", value := "100元"
    source := some { stype := some "social_media", url := some "http://weibo.com/post"
                     weight := some (4/10) }
    timestamp := Ts.missing }

/-- C8 counterexample: the claim says a fact with an absent source weight is
treated by *every* strategy as weight 0.5 — under WeightFirst it should beat a
fact of explicit weight 0.4.  `resolve_conflict_weight_first` defaults an
absent weight to 0 (line 34), so the 0.4-weight fact wins instead. -/
theorem weight_first_default_cex :
    resolve_conflict_weight_first [c8FactNoWeight, c8Fact04] = some c8Fact04 ∧
    c8Fact04 ≠ c8FactNoWeight := by
  constructor
  · show (insertDesc wfKey c8FactNoWeight (insertDesc wfKey c8Fact04 [])).head? =
      some c8Fact04
    rw [show insertDesc wfKey c8Fact04 [] = [c8Fact04] from rfl]
    rw [show insertDesc wfKey c8FactNoWeight [c8Fact04] =
      c8Fact04 :: insertDesc wfKey c8FactNoWeight []
      from if_neg (by norm_num [wfKey, c8FactNoWeight, c8Fact04])]
    rfl
  · intro hc
    exact absurd (congrArg Fact.value hc) (by decide)

/-- C8 as amended: only the hybrid strategy defaults an absent source weight
to 0.5 (two facts alike except for "weight absent" versus "weight 0.5" get the
same hybrid score); `resolve_conflict_weight_first` defaults an absent weight
to 0, so a fact without a source weight loses to any fact with a positive
explicit weight, regardless of input order. -/
theorem weight_default_spec (a b f g : Fact) (w : ℚ) (now : ℚ)
    (ha : a.source.bind (fun s => s.weight) = none)
    (hb : b.source.bind (fun s => s.weight) = some w) (hw : 0 < w)
    (hf : f.source.bind (fun s => s.weight) = none)
    (hg : g.source.bind (fun s => s.weight) = some (1/2))
    (hv : f.value = g.value) (ht : f.timestamp = g.timestamp) :
    resolve_conflict_weight_first [a, b] = some b ∧
    resolve_conflict_weight_first [b, a] = some b ∧
    hybridScore now f = hybridScore now g := by
  have hka : wfKey a = 0 := by simp [wfKey, ha]
  have hkb : wfKey b = w := by simp [wfKey, hb]
  refine ⟨?_, ?_, ?_⟩
  · show (insertDesc wfKey a (insertDesc wfKey b [])).head? = some b
    rw [show insertDesc wfKey b [] = [b] from rfl,
      show insertDesc wfKey a [b] = b :: insertDesc wfKey a [] from
        if_neg (by rw [hka, hkb]; exact not_le.2 hw)]
    rfl
  · show (insertDesc wfKey b (insertDesc wfKey a [])).head? = some b
    rw [show insertDesc wfKey a [] = [a] from rfl,
      show insertDesc wfKey b [a] = b :: [a] from
        if_pos (by rw [hka, hkb]; exact le_of_lt hw)]
    rfl
  · unfold hybridScore hybridBase hybridTime contentQuality
    rw [hf, hg, hv, ht]
    norm_num

/-- A weightless fact (for the C8 witness). -/
def c8wNoWeight : Fact :=
  { entity_name := "e", attr := "a", value := "v"
    source := some { stype := none, url := some "http://w1", weight := none }
    timestamp := Ts.missing }

/-- A fact of weight 0.6 (for the C8 witness). -/
def c8wPos : Fact :=
  { entity_name := "e", attr := "a", value := "v2"
    source := some { stype := none, url := some "http://w2", weight := some (6/10) }
    timestamp := Ts.missing }

/-- The weightless witness fact with its weight made the explicit 0.5. -/
def c8wHalf : Fact :=
  { entity_name := "e", attr := "a", value := "v"
    source := some { stype := none, url := some "http://w3", weight := some (1/2) }
    timestamp := Ts.missing }

/-- Witness for `weight_default_spec` at concrete facts. -/
theorem weight_default_spec_witness :
    resolve_conflict_weight_first [c8wNoWeight, c8wPos] = some c8wPos ∧
    resolve_conflict_weight_first [c8wPos, c8wNoWeight] = some c8wPos ∧
    hybridScore 0 c8wNoWeight = hybridScore 0 c8wHalf :=
  weight_default_spec c8wNoWeight c8wPos c8wNoWeight c8wHalf (6/10) 0 rfl rfl
    (by norm_num) rfl rfl rfl rfl

/-! ## Claim C1 — idempotence of merge application -/

/-- When neither assembled key is falsy, `tx_work` performs exactly the four
`MERGE` upserts. -/
theorem tx_work_eq (n1 n2 : String) (d : InData) (reason log_id weights : String)
    (s : Store) (h1 : (mkAttraction n1 d).name ≠ "")
    (h2 : (mkAttraction n1 d).location ≠ "") :
    tx_work n1 n2 d reason log_id weights s =
      { attractions := upsert (mkAttraction n1 d).name (mkAttraction n1 d) s.attractions
        cities := upsertCity (mkAttraction n1 d).location s.cities
        located_in :=
          upsert ((mkAttraction n1 d).name, (mkAttraction n1 d).location) reason s.located_in
        update_logs := upsert log_id
          { name := log_id, log_id := log_id, entity_name := (mkAttraction n1 d).name
            reason := reason, weights := weights, timestamp := n2 } s.update_logs } := by
  simp only [tx_work]
  rw [if_neg (not_or.mpr ⟨h1, h2⟩)]

/-- `preprocess_data` touches only the `name` field. -/
theorem preprocess_keeps (d : InData) :
    (preprocess_data d).location = d.location ∧
    (preprocess_data d).pub_timestamp = d.pub_timestamp := by
  unfold preprocess_data
  split <;> exact ⟨rfl, rfl⟩

/-- `preprocess_data` maps a non-empty name to a non-empty name. -/
theorem preprocess_name_ne (d : InData) (nm : String) (hname : d.name = some nm)
    (hnm : nm ≠ "") : ∃ nm2, (preprocess_data d).name = some nm2 ∧ nm2 ≠ "" := by
  unfold preprocess_data
  by_cases h : d.name = some "纳木错"
  · rw [if_pos h]
    exact ⟨"纳木措", rfl, by decide⟩
  · rw [if_neg h]
    exact ⟨nm, hname, hnm⟩

/-- When the record carries its own `pub_timestamp`, the assembled attraction
properties do not depend on the transaction clock. -/
theorem mkAttraction_clock (n n2 : String) (d : InData) (ts : String)
    (h : d.pub_timestamp = some ts) : mkAttraction n d = mkAttraction n2 d := by
  unfold mkAttraction
  rw [h]
  rfl

/-- A fully populated incoming record (for the C1 counterexample and
witness). -/
def c1Data : InData :=
  { name := some "布达拉宫", location := some "拉萨市", address := some "北京中路35号"
    description := some "西藏的标志性宫殿", pub_timestamp := some "2023-01-01T00:00:00+08:00"
    best_comment := some "必去", source_type := some "government", metrics := some "m"
    ranking := some "1", visitor_percentage := some "10%" }

/-- The empty graph store. -/
def emptyStore : Store :=
  { attractions := [], cities := [], located_in := [], update_logs := [] }

/-- C1 counterexample: the claim says applying the same accepted fact (same
log id) twice yields exactly one *additional* audit entry per application —
two entries after two applications from an empty store.  Because the
`UpdateLog` node is `MERGE`d by `name = log_id`, the second application
matches the existing node and updates it in place: after two applications
exactly one audit entry exists, not two. -/
theorem merge_audit_cex :
    ((update_knowledge_graph "T1" "T1b" c1Data "log-1" "resolved" "w" emptyStore).bind
      (fun s => update_knowledge_graph "T2" "T2b" c1Data "log-1" "resolved" "w" s)).map
        (fun s => s.update_logs.length) = Except.ok 1 ∧
    (1 : ℕ) ≠ 2 :=
  ⟨rfl, by decide⟩

/-- C1 as amended: applying a fact (carrying its own `pub_timestamp`) twice
with the same log id is idempotent on the graph — the second application
leaves the attraction nodes, city nodes and `LOCATED_IN` edges exactly as the
first left them, creates no duplicate of anything, and adds *no* additional
audit entry: the single `UpdateLog` node created by the first application
(exactly one more than before) is merely updated in place. -/
theorem merge_idempotent (n1 n2 n1b n2b : String) (d : InData)
    (log_id reason weights : String) (s : Store) (nm ts : String)
    (hname : d.name = some nm) (hnm : nm ≠ "")
    (hts : d.pub_timestamp = some ts)
    (hloc : d.location.getD "拉萨市" ≠ "")
    (hfresh : assocFind log_id s.update_logs = none) :
    ∃ s1 s2,
      update_knowledge_graph n1 n2 d log_id reason weights s = Except.ok s1 ∧
      update_knowledge_graph n1b n2b d log_id reason weights s1 = Except.ok s2 ∧
      s1.update_logs.length = s.update_logs.length + 1 ∧
      s2.attractions = s1.attractions ∧
      s2.cities = s1.cities ∧
      s2.located_in = s1.located_in ∧
      s2.update_logs.length = s1.update_logs.length := by
  obtain ⟨nm2, hpname, hnm2⟩ := preprocess_name_ne d nm hname hnm
  obtain ⟨hploc, hpts⟩ := preprocess_keeps d
  have hA : (mkAttraction n1 (preprocess_data d)).name ≠ "" := by
    show (preprocess_data d).name.getD "" ≠ ""
    rw [hpname]
    exact hnm2
  have hL : (mkAttraction n1 (preprocess_data d)).location ≠ "" := by
    show (preprocess_data d).location.getD "拉萨市" ≠ ""
    rw [hploc]
    exact hloc
  have hclock : mkAttraction n1b (preprocess_data d) = mkAttraction n1 (preprocess_data d) :=
    mkAttraction_clock n1b n1 (preprocess_data d) ts (by rw [hpts]; exact hts)
  have hAb : (mkAttraction n1b (preprocess_data d)).name ≠ "" := by rw [hclock]; exact hA
  have hLb : (mkAttraction n1b (preprocess_data d)).location ≠ "" := by rw [hclock]; exact hL
  have hukg : ∀ (m1 m2 : String) (st : Store),
      update_knowledge_graph m1 m2 d log_id reason weights st =
        Except.ok (tx_work m1 m2 (preprocess_data d) reason log_id weights st) := by
    intro m1 m2 st
    unfold update_knowledge_graph
    rw [hname]
    exact if_neg hnm
  refine ⟨tx_work n1 n2 (preprocess_data d) reason log_id weights s,
    tx_work n1b n2b (preprocess_data d) reason log_id weights
      (tx_work n1 n2 (preprocess_data d) reason log_id weights s),
    hukg n1 n2 s, hukg n1b n2b _, ?_, ?_, ?_, ?_, ?_⟩
  · rw [tx_work_eq n1 n2 _ reason log_id weights s hA hL]
    exact upsert_length_new hfresh _
  · rw [tx_work_eq n1b n2b _ reason log_id weights _ hAb hLb,
      tx_work_eq n1 n2 _ reason log_id weights s hA hL, hclock]
    exact upsert_upsert_same _ _ _
  · rw [tx_work_eq n1b n2b _ reason log_id weights _ hAb hLb,
      tx_work_eq n1 n2 _ reason log_id weights s hA hL, hclock]
    exact upsertCity_idem _ _
  · rw [tx_work_eq n1b n2b _ reason log_id weights _ hAb hLb,
      tx_work_eq n1 n2 _ reason log_id weights s hA hL, hclock]
    exact upsert_upsert_same _ _ _
  · rw [tx_work_eq n1b n2b _ reason log_id weights _ hAb hLb,
      tx_work_eq n1 n2 _ reason log_id weights s hA hL]
    exact upsert_length_found (by rw [assocFind_upsert_self]; rfl) _

/-- Witness for `merge_idempotent` at a concrete record and the empty
store. -/
theorem merge_idempotent_witness :
    ∃ s1 s2,
      update_knowledge_graph "A1" "A2" c1Data "log-7" "r" "w" emptyStore = Except.ok s1 ∧
      update_knowledge_graph "B1" "B2" c1Data "log-7" "r" "w" s1 = Except.ok s2 ∧
      s1.update_logs.length = emptyStore.update_logs.length + 1 ∧
      s2.attractions = s1.attractions ∧
      s2.cities = s1.cities ∧
      s2.located_in = s1.located_in ∧
      s2.update_logs.length = s1.update_logs.length :=
  merge_idempotent "A1" "A2" "B1" "B2" c1Data "log-7" "r" "w" emptyStore
    "布达拉宫" "2023-01-01T00:00:00+08:00" rfl (by decide) rfl (by decide) rfl

/-! ## Claim C4 — the hybrid score and its explanation -/

/-- First of two facts sharing one source url (for the C4 counterexample). -/
def c4DupA : Fact :=
  { entity_name := "色拉寺", attr := "辩经时间", value := "value-one"
    source := some { stype := some "official_site", url := some "http://sera-monastery.org/info"
                     weight := some (9/10) }
    timestamp := Ts.missing }

/-- Second fact with the same source url (for the C4 counterexample). -/
def c4DupB : Fact :=
  { entity_name := "色拉寺", attr := "辩经时间", value := "value-two"
    source := some { stype := some "official_site", url := some "http://sera-monastery.org/info"
                     weight := some (9/10) }
    timestamp := Ts.missing }

/-- A fact carrying a timezone-aware timestamp (for the C4 counterexample). -/
def c4Aware : Fact :=
  { entity_name := "e", attr := "a", value := "v"
    source := some { stype := none, url := some "http://aware", weight := some (1/2) }
    timestamp := Ts.aware 900 }

/-- C4 counterexample: the claim says the explanation reports, for *every*
candidate under a stable source-identifier key, the score and its components,
and that `time_freshness = 1 − min(1, age_days/365)·0.7` for timestamped
facts.  Both parts fail: (i) two candidates sharing one source url collapse
into a single dict entry (the repository's own test data contains such a
pair), so one candidate goes unreported; (ii) a timezone-aware timestamp
(every `…Z` timestamp in the repository) is scored `time_freshness = 0.3`,
not by the formula — the naive `datetime.now()` minus an aware datetime
raises `TypeError`, which is caught — here the formula value at age 100 days
would be `1 − (100/365)·0.7 ≠ 0.3`. -/
theorem hybrid_explanation_cex :
    (resolve_conflict_with_hybrid 0 [c4DupA, c4DupB]).2.scores.length = 1 ∧
    ([c4DupA, c4DupB] : List Fact).length = 2 ∧
    (hybridScoreEntry 1000 c4Aware).time_freshness = 3/10 ∧
    (1 : ℚ) - min 1 ((100 : ℚ)/365) * (7/10) ≠ 3/10 := by
  refine ⟨?_, rfl, rfl, ?_⟩
  · have hs : hybridScore 0 c4DupB ≤ hybridScore 0 c4DupA := le_of_eq rfl
    show (buildScores 0 0
        (insertDesc (hybridScore 0) c4DupA (insertDesc (hybridScore 0) c4DupB [])) []).length = 1
    rw [show insertDesc (hybridScore 0) c4DupB [] = [c4DupB] from rfl,
      show insertDesc (hybridScore 0) c4DupA [c4DupB] = [c4DupA, c4DupB] from if_pos hs]
    rfl
  · rw [min_eq_right (by norm_num : (100:ℚ)/365 ≤ 1)]
    norm_num

/-- C4 as amended: for a non-empty list of facts that all carry pairwise
distinct source urls, the hybrid resolver returns the first fact attaining the
maximal score `0.6·base_weight + 0.3·time_freshness + 0.1·content_quality`
(ties broken by original order), where `time_freshness` follows the claim's
formula only for timezone-naive timestamps (0.3 for missing, unparsable *and*
timezone-aware ones) and `content_quality = min(1, len/200)·0.5 + 0.5`; the
explanation then reports, under each candidate's url, exactly that
candidate's final score together with its components, one entry per
candidate. -/
theorem hybrid_spec (now : ℚ) (x : Fact) (xs : List Fact)
    (hurl : ∀ f ∈ x :: xs, (urlKey f).isSome = true)
    (hdist : (x :: xs).Pairwise (fun a b => urlKey a ≠ urlKey b)) :
    ∃ w, (resolve_conflict_with_hybrid now (x :: xs)).1 = some w ∧
      w ∈ x :: xs ∧
      (∀ f ∈ x :: xs, hybridScore now f ≤ hybridScore now w) ∧
      (∃ l₁ l₂, x :: xs = l₁ ++ w :: l₂ ∧
        ∀ f ∈ l₁, hybridScore now f < hybridScore now w) ∧
      (∀ f ∈ x :: xs, ∀ u, urlKey f = some u →
        assocFind u (resolve_conflict_with_hybrid now (x :: xs)).2.scores =
          some { final_score :=
                   hybridBase f * (6/10) + (hybridTime now f).2 * (3/10) +
                     contentQuality f * (1/10)
                 base_weight := hybridBase f
                 time_decay := (hybridTime now f).1
                 time_freshness := (hybridTime now f).2
                 content_quality := contentQuality f }) ∧
      (resolve_conflict_with_hybrid now (x :: xs)).2.scores.length = (x :: xs).length := by
  have hperm := sortDesc_perm (hybridScore now) (x :: xs)
  have hurl2 : ∀ f ∈ sortDesc (hybridScore now) (x :: xs), (urlKey f).isSome = true :=
    fun f hf => hurl f (hperm.mem_iff.1 hf)
  have hdist2 : (sortDesc (hybridScore now) (x :: xs)).Pairwise
      (fun a b => urlKey a ≠ urlKey b) :=
    (hperm.pairwise_iff (fun h => Ne.symm h)).2 hdist
  obtain ⟨w, l₁, l₂, hw, hdec, hlt, hle⟩ := sortDesc_head_spec (hybridScore now) x xs
  refine ⟨w, ?_, ?_, hle, ⟨l₁, l₂, hdec, hlt⟩, ?_, ?_⟩
  · show (sortDesc (hybridScore now) (x :: xs)).head? = some w
    exact hw
  · rw [hdec]
    exact List.mem_append_right l₁ (List.mem_cons_self w l₂)
  · intro f hf u hu
    show assocFind u (buildScores now 0 (sortDesc (hybridScore now) (x :: xs)) []) = _
    exact buildScores_find_mem now (sortDesc (hybridScore now) (x :: xs)) 0 [] f
      (hperm.mem_iff.2 hf) hurl2 hdist2 u hu
  · show (buildScores now 0 (sortDesc (hybridScore now) (x :: xs)) []).length = _
    rw [buildScores_length now (sortDesc (hybridScore now) (x :: xs)) 0 [] hurl2 hdist2
      (fun g hg u hu => rfl)]
    simp [hperm.length_eq]

/-- First witness fact for `hybrid_spec`, distinct url. -/
def c4wA : Fact :=
  { entity_name := "e", attr := "a", value := "longer-value-text"
    source := some { stype := none, url := some "http://alpha", weight := some (8/10) }
    timestamp := Ts.missing }

/-- Second witness fact for `hybrid_spec`, distinct url. -/
def c4wB : Fact :=
  { entity_name := "e", attr := "a", value := "short"
    source := some { stype := none, url := some "http://beta", weight := some (3/10) }
    timestamp := Ts.missing }

/-- Witness for `hybrid_spec` at a concrete two-fact input with distinct
urls. -/
theorem hybrid_spec_witness :
    ∃ w, (resolve_conflict_with_hybrid 0 [c4wA, c4wB]).1 = some w ∧
      w ∈ [c4wA, c4wB] ∧
      (∀ f ∈ [c4wA, c4wB], hybridScore 0 f ≤ hybridScore 0 w) ∧
      (∃ l₁ l₂, [c4wA, c4wB] = l₁ ++ w :: l₂ ∧
        ∀ f ∈ l₁, hybridScore 0 f < hybridScore 0 w) ∧
      (∀ f ∈ [c4wA, c4wB], ∀ u, urlKey f = some u →
        assocFind u (resolve_conflict_with_hybrid 0 [c4wA, c4wB]).2.scores =
          some { final_score :=
                   hybridBase f * (6/10) + (hybridTime 0 f).2 * (3/10) +
                     contentQuality f * (1/10)
                 base_weight := hybridBase f
                 time_decay := (hybridTime 0 f).1
                 time_freshness := (hybridTime 0 f).2
                 content_quality := contentQuality f }) ∧
      (resolve_conflict_with_hybrid 0 [c4wA, c4wB]).2.scores.length =
        ([c4wA, c4wB] : List Fact).length :=
  hybrid_spec 0 c4wA [c4wB] (by decide)
    (List.pairwise_cons.mpr ⟨fun b hb => by
        rw [List.mem_singleton.1 hb]; decide,
      List.pairwise_singleton _ _⟩)

/-! ## Claim C9 — equal weights, timestamps three years apart -/

/-- With a strictly larger hybrid score, a fact wins a two-fact conflict in
either input order. -/
theorem hybrid_two_fact_winner (now : ℚ) (a b : Fact)
    (h : hybridScore now a < hybridScore now b) :
    (resolve_conflict_with_hybrid now [a, b]).1 = some b ∧
    (resolve_conflict_with_hybrid now [b, a]).1 = some b := by
  constructor
  · show (insertDesc (hybridScore now) a (insertDesc (hybridScore now) b [])).head? = some b
    rw [show insertDesc (hybridScore now) b [] = [b] from rfl,
      show insertDesc (hybridScore now) a [b] = b :: insertDesc (hybridScore now) a [] from
        if_neg (not_le.2 h)]
    rfl
  · show (insertDesc (hybridScore now) b (insertDesc (hybridScore now) a [])).head? = some b
    rw [show insertDesc (hybridScore now) a [] = [a] from rfl,
      show insertDesc (hybridScore now) b [a] = b :: [a] from if_pos (le_of_lt h)]
    rfl

/-- The older of two facts with equal weight 0.7 and equal-length values,
timestamped (naive) three years — 1095 days — before the newer one. -/
def c9Old : Fact :=
  { entity_name := "扎什伦布寺", attr := "开放时间", value := "abcd"
    source := some { stype := some "travel_guide", url := some "http://travel-guide.com/shigatse"
                     weight := some (7/10) }
    timestamp := Ts.naive 17000 }

/-- The newer of the two facts (timestamp ordinal 18095 = 17000 + 1095). -/
def c9New : Fact :=
  { entity_name := "扎什伦布寺", attr := "开放时间", value := "wxyz"
    source := some { stype := some "travel_guide", url := some "http://tourist-handbook.com/shigatse"
                     weight := some (7/10) }
    timestamp := Ts.naive 18095 }

/-- C9 counterexample: the claim says the hybrid resolver picks the fact with
the newer of two valid timestamps three years apart (equal weights 0.7,
equal-length values) regardless of input order.  Evaluated at a `now` at which
*both* facts are more than 365 days old, both get the floor freshness 0.3, the
scores tie, the stable sort keeps input order — and the *older* fact wins when
it is listed first. -/
theorem hybrid_recency_cex :
    (resolve_conflict_with_hybrid 20000 [c9Old, c9New]).1 = some c9Old ∧
    (c9Old ≠ c9New) ∧
    c9Old.value.length = c9New.value.length ∧
    c9New.timestamp = Ts.naive 18095 ∧
    c9Old.timestamp = Ts.naive (18095 - 1095) := by
  refine ⟨?_, ?_, rfl, rfl, by norm_num [c9Old]⟩
  · have hs : hybridScore 20000 c9New ≤ hybridScore 20000 c9Old := by
      norm_num [hybridScore, hybridBase, hybridTime, contentQuality, c9Old, c9New,
        show ("abcd").length = 4 from rfl, show ("wxyz").length = 4 from rfl]
    show (insertDesc (hybridScore 20000) c9Old
        (insertDesc (hybridScore 20000) c9New [])).head? = some c9Old
    rw [show insertDesc (hybridScore 20000) c9New [] = [c9New] from rfl,
      show insertDesc (hybridScore 20000) c9Old [c9New] = [c9Old, c9New] from if_pos hs]
    rfl
  · intro hc
    exact absurd (congrArg Fact.value hc) (by decide)

/-- C9 as amended: with equal weights 0.7, equal-length values and naive
timestamps 1095 days (three years) apart, the hybrid resolver picks the newer
fact regardless of input order *provided the newer fact is itself less than
365 days old at resolution time* (otherwise both freshness values hit the 0.3
floor and the tie is broken by input order instead). -/
theorem hybrid_recency_spec (now tNew : ℚ) (fOld fNew : Fact)
    (hwOld : fOld.source.bind (fun s => s.weight) = some (7/10))
    (hwNew : fNew.source.bind (fun s => s.weight) = some (7/10))
    (hlen : fOld.value.length = fNew.value.length)
    (htOld : fOld.timestamp = Ts.naive (tNew - 1095))
    (htNew : fNew.timestamp = Ts.naive tNew)
    (hage0 : 0 ≤ ⌊now - tNew⌋) (hage1 : ⌊now - tNew⌋ < 365) :
    (resolve_conflict_with_hybrid now [fOld, fNew]).1 = some fNew ∧
    (resolve_conflict_with_hybrid now [fNew, fOld]).1 = some fNew := by
  have hfloorOld : ⌊now - (tNew - 1095)⌋ = ⌊now - tNew⌋ + 1095 := by
    rw [show now - (tNew - 1095) = (now - tNew) + ((1095:ℤ) : ℚ) by push_cast; ring]
    exact Int.floor_add_int _ _
  have hcast0 : (0:ℚ) ≤ ((⌊now - tNew⌋ : ℤ) : ℚ) := by exact_mod_cast hage0
  have hfrOld : (hybridTime now fOld).2 = 3/10 := by
    simp only [hybridTime, htOld]
    rw [hfloorOld]
    have h1 : (1:ℚ) ≤ ((⌊now - tNew⌋ + 1095 : ℤ) : ℚ) / 365 := by
      rw [le_div_iff₀ (by norm_num : (0:ℚ) < 365)]
      push_cast
      linarith
    rw [min_eq_left h1]
    norm_num
  have hfrNew : 3/10 < (hybridTime now fNew).2 := by
    simp only [hybridTime, htNew]
    have hlt : ((⌊now - tNew⌋ : ℤ) : ℚ) / 365 < 1 := by
      rw [div_lt_one (by norm_num : (0:ℚ) < 365)]
      exact_mod_cast hage1
    rw [min_eq_right (le_of_lt hlt)]
    nlinarith
  have hq : contentQuality fOld = contentQuality fNew := by
    unfold contentQuality
    rw [hlen]
  have hscore : hybridScore now fOld < hybridScore now fNew := by
    unfold hybridScore hybridBase
    rw [hwOld, hwNew, hq, hfrOld]
    simp only [Option.getD_some]
    linarith [hfrNew]
  exact hybrid_two_fact_winner now fOld fNew hscore

/-- Witness for `hybrid_recency_spec`: the same two facts resolved at a `now`
only 105 days after the newer timestamp. -/
theorem hybrid_recency_spec_witness :
    (resolve_conflict_with_hybrid 18200 [c9Old, c9New]).1 = some c9New ∧
    (resolve_conflict_with_hybrid 18200 [c9New, c9Old]).1 = some c9New :=
  hybrid_recency_spec 18200 18095 c9Old c9New rfl rfl rfl (by norm_num [c9Old])
    rfl (by norm_num) (by norm_num)

end GraphCDJ
